import Mathlib

/-!
# Verification of the Task Manager backend (`backend/app.py`)

Shallow embedding of the Flask + MongoDB task manager. Conventions:

* MongoDB collections become Lean lists kept in insertion (natural) order;
  `find_one` is `List.find?`, `delete_one` is `List.eraseP`, `delete_many`
  is `List.filter` with the negated predicate, `insert_one` appends,
  `update_one` with `$set` rewrites the first matching document.
* `datetime` values become `Nat` (a monotone clock; ISO-8601 rendering of
  these timestamps is order-preserving, so sorting by the rendered string
  in `get_tasks` is sorting by this `Nat`). Each handler takes the single
  `now` at which the request executes.
* MongoDB ObjectIds become `Nat`s drawn from a `nextId` counter; the string
  form appearing in routes is the decimal rendering, and the
  `ObjectId(task_id)` constructor that raises on malformed input becomes
  the parse `objectId?` returning `none`.
* JSON request bodies become typed payload structures; a field absent from
  the JSON object is `none`. Python truthiness of a string (`if not title`)
  is `= none ∨ = some ""`, and absent strings read through `data.get`
  with no default collapse to `""`.
* `secrets.token_hex(32)` becomes an explicit `token` argument (freshness,
  where a claim needs it, is a hypothesis mirroring the unique index).
* `hashlib.sha256(p).hexdigest()` is modelled as an injective tag function:
  the cryptographic digest itself is not representable, and the code relies
  only on equality of digests tracking equality of inputs.
-/

namespace TaskManager

/-- A document of `users_collection`: `register` stores
`{username, email, password: hash, created_at}`; MongoDB adds the internal
`_id`, modelled as `id`, which no handler ever reads. -/
structure User where
  id : Nat
  username : String
  email : String
  password : String
  created_at : Nat
deriving DecidableEq

/-- A document of `sessions_collection`: `{token, user_id, expires}` as
built by `login`. `user_id` holds the username string. -/
structure Session where
  token : String
  user_id : String
  expires : Nat
deriving DecidableEq

/-- A document of `tasks_collection` as built by `create_task`, with the
MongoDB `_id` modelled as `id`. -/
structure Task where
  id : Nat
  title : String
  description : String
  completed : Bool
  user_id : String
  due_date : Option String
  due_time : Option String
  category : String
  created_at : Nat
  updated_at : Nat
deriving DecidableEq

/-- The three collections of the `task_manager` database plus the ObjectId
counter. -/
structure DB where
  users : List User
  sessions : List Session
  tasks : List Task
  nextId : Nat
deriving DecidableEq

/-- `hashlib.sha256(password.encode()).hexdigest()`, modelled as an
injective encoding (see module docstring). -/
def hash_password (password : String) : String :=
  "sha256:" ++ password

/-- Outcome of the `verify_token` decorator: the three 401 bodies
(`No token provided`, `Invalid token`, `Token expired`) or success carrying
`request.user_id`. -/
inductive AuthResult where
  | noToken
  | invalidToken
  | expired
  | ok (user_id : String)
deriving DecidableEq

/-- `token.replace('Bearer ', '')` on the character list: Python's
`str.replace` removes every left-to-right non-overlapping occurrence of
the pattern, not only a leading one. -/
def stripBearerAux : List Char → List Char
  | 'B' :: 'e' :: 'a' :: 'r' :: 'e' :: 'r' :: ' ' :: rest => stripBearerAux rest
  | c :: cs => c :: stripBearerAux cs
  | [] => []

/-- `token.replace('Bearer ', '')`. -/
def stripBearer (s : String) : String :=
  String.mk (stripBearerAux s.data)

/-- Decides whether the character list contains no occurrence of
`"Bearer "`. -/
def noBearer : List Char → Bool
  | 'B' :: 'e' :: 'a' :: 'r' :: 'e' :: 'r' :: ' ' :: _ => false
  | _ :: cs => noBearer cs
  | [] => true

/-- The session lookup inside `verify_token` (lines 112-125): find the
session by token, reject if absent, lazily evict and reject if expired,
otherwise resolve `session['user_id']`. Returns the result together with
the possibly-updated database. -/
def validateToken (token : String) (now : Nat) (db : DB) : AuthResult × DB :=
  match db.sessions.find? (fun s => s.token == token) with
  | none => (AuthResult.invalidToken, db)
  | some s =>
    if s.expires < now then
      (AuthResult.expired,
        { db with sessions := db.sessions.eraseP (fun x => x.token == token) })
    else
      (AuthResult.ok s.user_id, db)

/-- The `verify_token` decorator (lines 100-128): missing or empty
`Authorization` header short-circuits, otherwise the header value with
every `"Bearer "` occurrence removed is looked up. -/
def verify_token (header : Option String) (now : Nat) (db : DB) : AuthResult × DB :=
  match header with
  | none => (AuthResult.noToken, db)
  | some h =>
    if h = "" then (AuthResult.noToken, db)
    else validateToken (stripBearer h) now db

/-- Response body of a successful login: `{token, username, email}`. -/
structure LoginResp where
  token : String
  username : String
  email : String
deriving DecidableEq

/-- `login` (lines 181-236). Returns (HTTP status, optional success body)
and the updated database. `token` stands for the fresh
`secrets.token_hex(32)`; `username`/`password` are the request fields with
JSON-absent collapsed to `""` (both are rejected by the same falsiness
check). A new session for the username is inserted after deleting every
session whose `user_id` equals the username; expiry is 24 hours out. -/
def login (username password token : String) (now : Nat) (db : DB) :
    (Nat × Option LoginResp) × DB :=
  if username = "" ∨ password = "" then ((400, none), db)
  else
    match db.users.find? (fun u => u.username == username) with
    | none => ((401, none), db)
    | some user =>
      if user.password ≠ hash_password password then ((401, none), db)
      else
        ((200, some ⟨token, username, user.email⟩),
          { db with sessions :=
              db.sessions.filter (fun s => !(s.user_id == username)) ++
                [⟨token, username, now + 24 * 60 * 60⟩] })

/-- `verify` (lines 238-252): echoes `{'valid': True, 'user_id':
request.user_id}` with status 200. -/
def verify (user_id : String) : Nat × (Bool × String) :=
  (200, (true, user_id))

/-- Relation ordering tasks newest-first (the `reverse=True` sort key of
`get_tasks`). -/
def taskNewer (a b : Task) : Prop :=
  b.created_at ≤ a.created_at

instance : DecidableRel taskNewer := fun _ _ => Nat.decLe _ _

instance : IsTotal Task taskNewer :=
  ⟨fun a b => Nat.le_total b.created_at a.created_at⟩

instance : IsTrans Task taskNewer :=
  ⟨fun _ _ _ hab hbc => Nat.le_trans hbc hab⟩

/-- `get_tasks` (lines 277-306): all tasks with the caller's `user_id`,
sorted by creation time newest first. Python's `list.sort` is stable, as
is insertion sort with a reflexive total order, so this is the list the
route serializes. -/
def get_tasks (user_id : String) (db : DB) : List Task :=
  (db.tasks.filter (fun t => t.user_id == user_id)).insertionSort taskNewer

/-- JSON body of POST `/api/tasks`: `title` required, the rest optional. -/
structure CreatePayload where
  title : Option String
  description : Option String
  due_date : Option String
  due_time : Option String
  category : Option String
deriving DecidableEq

/-- `create_task` (lines 308-373): rejects a missing or empty title with
400, otherwise stores the document with defaults `description=''`,
`completed=False`, `category='general'`, `created_at=updated_at=now` and
returns it with status 201. -/
def create_task (user_id : String) (data : CreatePayload) (now : Nat) (db : DB) :
    (Nat × Option Task) × DB :=
  match data.title with
  | none => ((400, none), db)
  | some title =>
    if title = "" then ((400, none), db)
    else
      let task : Task :=
        { id := db.nextId
          title := title
          description := data.description.getD ""
          completed := false
          user_id := user_id
          due_date := data.due_date
          due_time := data.due_time
          category := data.category.getD "general"
          created_at := now
          updated_at := now }
      ((201, some task), { db with tasks := db.tasks ++ [task], nextId := db.nextId + 1 })

/-- Value of a decimal digit character, `none` otherwise. -/
def digitVal (c : Char) : Option Nat :=
  if '0' ≤ c ∧ c ≤ '9' then some (c.toNat - '0'.toNat) else none

/-- Accumulating decimal parse of a character list. -/
def objectIdAux (acc : Nat) : List Char → Option Nat
  | [] => some acc
  | c :: cs =>
    match digitVal c with
    | none => none
    | some d => objectIdAux (acc * 10 + d) cs

/-- The `ObjectId(task_id)` constructor: raising on a malformed identifier
becomes `none`. Identifiers are modelled as `Nat`s rendered in decimal, so
a well-formed identifier string is a non-empty digit string. -/
def objectId? (s : String) : Option Nat :=
  if s.data = [] then none else objectIdAux 0 s.data

/-- JSON body of PUT `/api/tasks/{id}`: every field optional (`'f' in
data`); the nullable scheduling fields may be set to a value or cleared. -/
structure UpdatePayload where
  title : Option String
  description : Option String
  completed : Option Bool
  due_date : Option (Option String)
  due_time : Option (Option String)
  category : Option String
deriving DecidableEq

/-- The `$set` document of `update_task` (lines 410-432) applied to a
stored task: `updated_at` is always bumped, every other field only when
present in the request body. -/
def applyPatch (t : Task) (p : UpdatePayload) (now : Nat) : Task :=
  { t with
    updated_at := now
    title := p.title.getD t.title
    description := p.description.getD t.description
    completed := p.completed.getD t.completed
    due_date := p.due_date.getD t.due_date
    due_time := p.due_time.getD t.due_time
    category := p.category.getD t.category }

/-- `update_one`: rewrite the first document matching the predicate. -/
def updateFirst (q : α → Bool) (f : α → α) : List α → List α
  | [] => []
  | x :: xs => if q x then f x :: xs else x :: updateFirst q f xs

/-- `update_task` (lines 375-452). Malformed id → 400 (the `ObjectId`
constructor raises into the `except`); no task with this id owned by the
caller → 404; otherwise the first document with this `_id` gets the patch
`$set` and the re-fetched document is returned with 200. Should the
re-fetch come back empty the subscript on `None` would raise into the
same `except`, after the write: status 400 with the mutated store. -/
def update_task (user_id task_id : String) (p : UpdatePayload) (now : Nat) (db : DB) :
    (Nat × Option Task) × DB :=
  match objectId? task_id with
  | none => ((400, none), db)
  | some oid =>
    match db.tasks.find? (fun t => t.id == oid && t.user_id == user_id) with
    | none => ((404, none), db)
    | some _ =>
      let tasks' := updateFirst (fun t => t.id == oid) (fun t => applyPatch t p now) db.tasks
      match tasks'.find? (fun t => t.id == oid) with
      | none => ((400, none), { db with tasks := tasks' })
      | some t' => ((200, some t'), { db with tasks := tasks' })

/-- `delete_task` (lines 454-485). Malformed id → 400; `delete_one` with
`{_id, user_id}` removes the first matching document, and a zero deleted
count reports 404. -/
def delete_task (user_id task_id : String) (db : DB) : Nat × DB :=
  match objectId? task_id with
  | none => (400, db)
  | some oid =>
    if db.tasks.any (fun t => t.id == oid && t.user_id == user_id) then
      (200, { db with tasks := db.tasks.eraseP (fun t => t.id == oid && t.user_id == user_id) })
    else
      (404, db)

/-! ## Helper lemmas -/

/-- In a list pairwise-distinct under a key, the key determines the
element. -/
theorem key_unique {α β : Type} (k : α → β) {l : List α}
    (hp : l.Pairwise (fun a b => k a ≠ k b)) {x y : α}
    (hx : x ∈ l) (hy : y ∈ l) (h : k x = k y) : x = y := by
  induction l with
  | nil => cases hx
  | cons a l ih =>
    rw [List.pairwise_cons] at hp
    rcases List.mem_cons.mp hx with rfl | hx' <;> rcases List.mem_cons.mp hy with rfl | hy'
    · rfl
    · exact absurd h (hp.1 y hy')
    · exact absurd h.symm (hp.1 x hx')
    · exact ih hp.2 hx' hy'

/-- `find?` returns a member satisfying the predicate when that member is
the only satisfier. -/
theorem find?_eq_some_of_unique {α : Type} {p : α → Bool} {l : List α} {s : α}
    (hs : s ∈ l) (hps : p s = true)
    (huniq : ∀ x ∈ l, p x = true → x = s) : l.find? p = some s := by
  induction l with
  | nil => cases hs
  | cons a l ih =>
    by_cases hpa : p a = true
    · have ha : a = s := huniq a (List.mem_cons_self a l) hpa
      subst ha
      exact List.find?_cons_of_pos _ hpa
    · have hs' : s ∈ l := by
        rcases List.mem_cons.mp hs with rfl | h'
        · exact absurd hps hpa
        · exact h'
      rw [List.find?_cons_of_neg _ hpa]
      exact ih hs' (fun x hx hpx => huniq x (List.mem_cons_of_mem _ hx) hpx)

/-- After erasing the unique element with a given key, no element with
that key remains. -/
theorem find?_eraseP_key {α β : Type} (k : α → β) [DecidableEq β] {l : List α} {v : β}
    [BEq β] [LawfulBEq β]
    (hp : l.Pairwise (fun a b => k a ≠ k b)) :
    (l.eraseP (fun x => k x == v)).find? (fun x => k x == v) = none := by
  induction l with
  | nil => rfl
  | cons a l ih =>
    rw [List.pairwise_cons] at hp
    by_cases ha : k a = v
    · rw [List.eraseP_cons_of_pos (by simpa using ha)]
      rw [List.find?_eq_none]
      intro x hx
      simp only [beq_iff_eq]
      intro hxv
      exact hp.1 x hx (by rw [ha, hxv])
    · rw [List.eraseP_cons_of_neg (by simpa using ha)]
      rw [List.find?_cons_of_neg _ (by simpa using ha)]
      exact ih hp.2

/-- `updateFirst` rewrites exactly the first `find?` hit, provided the
rewrite preserves the predicate. -/
theorem find?_updateFirst {α : Type} {q : α → Bool} {f : α → α} :
    ∀ {l : List α} {t : α}, l.find? q = some t → q (f t) = true →
      (updateFirst q f l).find? q = some (f t) := by
  intro l
  induction l with
  | nil => intro t h; cases h
  | cons a l ih =>
    intro t h hft
    by_cases hqa : q a = true
    · rw [List.find?_cons_of_pos _ hqa] at h
      cases h
      rw [updateFirst, if_pos hqa]
      exact List.find?_cons_of_pos _ hft
    · rw [List.find?_cons_of_neg _ hqa] at h
      rw [updateFirst, if_neg hqa]
      rw [List.find?_cons_of_neg _ hqa]
      exact ih h hft

/-- Members of `updateFirst` are old members or the image of an old
member. -/
theorem mem_updateFirst {α : Type} {q : α → Bool} {f : α → α} :
    ∀ {l : List α} {x : α}, x ∈ updateFirst q f l → x ∈ l ∨ ∃ y ∈ l, x = f y := by
  intro l
  induction l with
  | nil => intro x h; cases h
  | cons a l ih =>
    intro x h
    by_cases hqa : q a = true
    · rw [updateFirst, if_pos hqa] at h
      rcases List.mem_cons.mp h with rfl | h'
      · exact Or.inr ⟨a, List.mem_cons_self a l, rfl⟩
      · exact Or.inl (List.mem_cons_of_mem _ h')
    · rw [updateFirst, if_neg hqa] at h
      rcases List.mem_cons.mp h with rfl | h'
      · exact Or.inl (List.mem_cons_self x l)
      · rcases ih h' with h'' | ⟨y, hy, rfl⟩
        · exact Or.inl (List.mem_cons_of_mem _ h'')
        · exact Or.inr ⟨y, List.mem_cons_of_mem _ hy, rfl⟩

/-- The modelled digest is injective (the code relies on digest equality
tracking password equality). -/
theorem hash_password_inj {a b : String} (h : hash_password a = hash_password b) : a = b := by
  have hd := congrArg String.data h
  simp only [hash_password, String.data_append] at hd
  have hab : a.data = b.data := List.append_cancel_left hd
  cases a
  cases b
  exact congrArg String.mk hab

/-- Shape of a successful login: status 200, the `{token, username,
email}` body, and the session list with the user's sessions evicted and
the fresh one appended. -/
theorem login_success {username password token : String} {now : Nat} {db : DB} {user : User}
    (hu : db.users.find? (fun u => u.username == username) = some user)
    (hpw : user.password = hash_password password)
    (h1 : username ≠ "") (h2 : password ≠ "") :
    login username password token now db =
      ((200, some ⟨token, username, user.email⟩),
        { db with sessions :=
            db.sessions.filter (fun s => !(s.user_id == username)) ++
              [⟨token, username, now + 24 * 60 * 60⟩] }) := by
  simp [login, h1, h2, hu, hpw]

/-- A character list containing no `"Bearer "` occurrence is unchanged by
the replacement. -/
theorem noBearer_stripBearerAux_id :
    ∀ l : List Char, noBearer l = true → stripBearerAux l = l := by
  intro l
  induction l using stripBearerAux.induct with
  | case1 rest ih =>
    intro h
    have hfalse : noBearer ('B' :: 'e' :: 'a' :: 'r' :: 'e' :: 'r' :: ' ' ::rest) = false := rfl
    rw [hfalse] at h
    cases h
  | case2 c cs hne ih =>
    intro h
    rw [noBearer.eq_2 c cs hne] at h
    rw [stripBearerAux.eq_2 c cs hne, ih h]
  | case3 =>
    intro _
    rfl

/-- Stripping an exact `"Bearer "` + token header recovers the token when
the token itself contains no `"Bearer "` occurrence. -/
theorem stripBearer_bearer_append (t : String) (h : noBearer t.data = true) :
    stripBearer ("Bearer " ++ t) = t := by
  show String.mk (stripBearerAux ("Bearer " ++ t).data) = t
  have hd : ("Bearer " ++ t).data = 'B' :: 'e' :: 'a' :: 'r' :: 'e' :: 'r' :: ' ' :: t.data := by
    rw [String.data_append]
    rw [show "Bearer ".data = ['B','e','a','r','e','r',' '] from by decide]
    rfl
  rw [hd]
  have harm : stripBearerAux ('B' :: 'e' :: 'a' :: 'r' :: 'e' :: 'r' :: ' ' :: t.data) =
      stripBearerAux t.data := rfl
  rw [harm, noBearer_stripBearerAux_id t.data h]

/-- A header with no `"Bearer "` occurrence is used as the token verbatim. -/
theorem stripBearer_id (h : String) (hh : noBearer h.data = true) : stripBearer h = h := by
  show String.mk (stripBearerAux h.data) = h
  rw [noBearer_stripBearerAux_id h.data hh]

/-- C9 counterexample: the gate does not call validate on exactly the
token following `"Bearer "` (the replacement also fires inside the
token), and a header without the leading `"Bearer "` is not used
unchanged (an interior occurrence is still removed); consequently a
stored session whose token is exactly the suffix after `"Bearer "` is
reported as an invalid token. -/
theorem c9_counterexample :
    stripBearer ("Bearer " ++ "xBearer y") ≠ "xBearer y"
    ∧ stripBearer "xBearer y" ≠ "xBearer y"
    ∧ (verify_token (some ("Bearer " ++ "xBearer y")) 0
        ⟨[], [⟨"xBearer y", "u", 5⟩], [], 0⟩).1 = AuthResult.invalidToken := by
  decide

/-- C9 (amended): a missing header short-circuits with the unauthorized
result; when the header is exactly `"Bearer "` followed by a token that
itself contains no `"Bearer "` occurrence, validate is called on exactly
that token; when the header contains no `"Bearer "` occurrence at all it
is used as the token unchanged. (The code removes every occurrence of the
literal `"Bearer "` from the header, so the unamended claim fails for
tokens containing that literal.) -/
theorem c9_bearer_extraction (t h : String) (now : Nat) (db : DB)
    (ht : noBearer t.data = true) (hh : noBearer h.data = true) (hne : h ≠ "") :
    verify_token none now db = (AuthResult.noToken, db)
    ∧ stripBearer ("Bearer " ++ t) = t
    ∧ verify_token (some ("Bearer " ++ t)) now db = validateToken t now db
    ∧ stripBearer h = h
    ∧ verify_token (some h) now db = validateToken h now db := by
  have hbne : ("Bearer " ++ t) ≠ "" := by
    intro hcontra
    have := congrArg String.data hcontra
    rw [String.data_append] at this
    cases this
  refine ⟨rfl, stripBearer_bearer_append t ht, ?_, stripBearer_id h hh, ?_⟩
  · rw [verify_token, if_neg hbne, stripBearer_bearer_append t ht]
  · rw [verify_token, if_neg hne, stripBearer_id h hh]

/-- C9 witness for the amended theorem. -/
theorem c9_bearer_extraction_witness :
    verify_token (some ("Bearer " ++ "abc")) 0 ⟨[], [⟨"abc", "u", 9⟩], [], 0⟩ =
      validateToken "abc" 0 ⟨[], [⟨"abc", "u", 9⟩], [], 0⟩ := by
  have hmain := c9_bearer_extraction "abc" "zzz" 0 ⟨[], [⟨"abc", "u", 9⟩], [], 0⟩
    (by decide) (by decide) (by decide)
  exact hmain.2.2.1

/-- C8: `get_tasks` returns a permutation of exactly the caller's tasks,
sorted newest first (pairwise: each task was created no earlier than every
later one), the empty list when the caller owns none, and on three tasks
created at times 1 < 2 < 3 it returns them newest first. -/
theorem c8_list_ordering (uid : String) (db : DB) :
    (get_tasks uid db).Perm (db.tasks.filter (fun t => t.user_id == uid))
    ∧ List.Pairwise taskNewer (get_tasks uid db)
    ∧ (∀ t : Task, t ∈ get_tasks uid db ↔ t ∈ db.tasks ∧ t.user_id = uid)
    ∧ ((∀ t ∈ db.tasks, t.user_id ≠ uid) → get_tasks uid db = [])
    ∧ get_tasks "u" ⟨[], [],
        [⟨1, "t1", "", false, "u", none, none, "general", 1, 1⟩,
         ⟨2, "t2", "", false, "u", none, none, "general", 2, 2⟩,
         ⟨3, "t3", "", false, "u", none, none, "general", 3, 3⟩], 4⟩ =
        [⟨3, "t3", "", false, "u", none, none, "general", 3, 3⟩,
         ⟨2, "t2", "", false, "u", none, none, "general", 2, 2⟩,
         ⟨1, "t1", "", false, "u", none, none, "general", 1, 1⟩] := by
  refine ⟨List.perm_insertionSort taskNewer _, List.sorted_insertionSort taskNewer _, ?_, ?_, by decide⟩
  · intro t
    rw [get_tasks, List.mem_insertionSort, List.mem_filter]
    simp
  · intro hnone
    rw [get_tasks, List.filter_eq_nil_iff.mpr (by intro a ha; simpa using hnone a ha)]
    rfl

/-- C5: a create call carrying only a non-empty title stores and returns a
task with `completed = false`, empty description, category `general`, and
`created_at = updated_at = now`, appended to the store; a missing or empty
title is rejected with 400 and leaves the store unchanged. -/
theorem c5_create_defaults (uid title : String) (now : Nat) (db : DB) (h : title ≠ "") :
    create_task uid ⟨some title, none, none, none, none⟩ now db =
      ((201, some ⟨db.nextId, title, "", false, uid, none, none, "general", now, now⟩),
        { db with
            tasks := db.tasks ++ [⟨db.nextId, title, "", false, uid, none, none, "general", now, now⟩]
            nextId := db.nextId + 1 })
    ∧ (∀ d dd dt c, create_task uid ⟨none, d, dd, dt, c⟩ now db = ((400, none), db))
    ∧ (∀ d dd dt c, create_task uid ⟨some "", d, dd, dt, c⟩ now db = ((400, none), db)) := by
  refine ⟨?_, ?_, ?_⟩
  · simp [create_task, h]
  · intro d dd dt c
    rfl
  · intro d dd dt c
    simp [create_task]

/-- C5 witness. -/
theorem c5_create_defaults_witness :
    (create_task "alice" ⟨some "buy milk", none, none, none, none⟩ 7 ⟨[], [], [], 0⟩).1 =
      (201, some ⟨0, "buy milk", "", false, "alice", none, none, "general", 7, 7⟩) := by
  have hmain := c5_create_defaults "alice" "buy milk" 7 ⟨[], [], [], 0⟩ (by decide)
  rw [hmain.1]

/-- C7: updating an owned task applies exactly the `$set` document: the
stored and returned record is `applyPatch` of the prior record, an empty
patch changes only `updated_at`, and each field absent from the patch
(as well as the never-patchable `id`, `user_id`, `created_at`) retains
its prior value. -/
theorem c7_empty_patch_frame (uid tid : String) (p : UpdatePayload) (now : Nat) (db : DB) (t : Task)
    (hp : db.tasks.Pairwise (fun x y => x.id ≠ y.id))
    (ht : t ∈ db.tasks) (hown : t.user_id = uid) (htid : objectId? tid = some t.id) :
    update_task uid tid p now db =
      ((200, some (applyPatch t p now)),
        { db with tasks := updateFirst (fun x => x.id == t.id) (fun x => applyPatch x p now) db.tasks })
    ∧ applyPatch t ⟨none, none, none, none, none, none⟩ now = { t with updated_at := now }
    ∧ (applyPatch t p now).id = t.id
    ∧ (applyPatch t p now).user_id = t.user_id
    ∧ (applyPatch t p now).created_at = t.created_at
    ∧ (p.title = none → (applyPatch t p now).title = t.title)
    ∧ (p.description = none → (applyPatch t p now).description = t.description)
    ∧ (p.completed = none → (applyPatch t p now).completed = t.completed)
    ∧ (p.due_date = none → (applyPatch t p now).due_date = t.due_date)
    ∧ (p.due_time = none → (applyPatch t p now).due_time = t.due_time)
    ∧ (p.category = none → (applyPatch t p now).category = t.category) := by
  have hq1 : db.tasks.find? (fun x => x.id == t.id && x.user_id == uid) = some t := by
    apply find?_eq_some_of_unique ht
    · simp [hown]
    · intro x hx hpx
      simp only [Bool.and_eq_true, beq_iff_eq] at hpx
      exact key_unique Task.id hp hx ht hpx.1
  have hq2 : db.tasks.find? (fun x => x.id == t.id) = some t := by
    apply find?_eq_some_of_unique ht
    · simp
    · intro x hx hpx
      simp only [beq_iff_eq] at hpx
      exact key_unique Task.id hp hx ht hpx
  have hq3 : (updateFirst (fun x => x.id == t.id) (fun x => applyPatch x p now) db.tasks).find?
      (fun x => x.id == t.id) = some (applyPatch t p now) :=
    find?_updateFirst hq2 (beq_iff_eq.mpr rfl)
  refine ⟨?_, ?_, rfl, rfl, rfl, ?_, ?_, ?_, ?_, ?_, ?_⟩
  · simp only [update_task, htid, hq1, hq3]
  · rfl
  · intro hnone
    simp [applyPatch, hnone]
  · intro hnone
    simp [applyPatch, hnone]
  · intro hnone
    simp [applyPatch, hnone]
  · intro hnone
    simp [applyPatch, hnone]
  · intro hnone
    simp [applyPatch, hnone]
  · intro hnone
    simp [applyPatch, hnone]

/-- C7 witness. -/
theorem c7_empty_patch_frame_witness :
    update_task "u" "0" ⟨none, none, none, none, none, none⟩ 9
        ⟨[], [], [⟨0, "t", "d", true, "u", none, none, "work", 5, 5⟩], 1⟩ =
      ((200, some ⟨0, "t", "d", true, "u", none, none, "work", 5, 9⟩),
        ⟨[], [], [⟨0, "t", "d", true, "u", none, none, "work", 5, 9⟩], 1⟩) := by
  have hmain := c7_empty_patch_frame "u" "0" ⟨none, none, none, none, none, none⟩ 9
    ⟨[], [], [⟨0, "t", "d", true, "u", none, none, "work", 5, 5⟩], 1⟩
    ⟨0, "t", "d", true, "u", none, none, "work", 5, 5⟩
    (by decide) (by decide) (by decide) (by decide)
  rw [hmain.1]
  decide

/-- C1: a task of user `a` is invisible to a distinct authenticated user
`b`: it is not in `b`'s list, and update and delete invoked with `b`'s
identity and the task's correct id answer 404 NotFound with the store
unchanged. -/
theorem c1_ownership_scoping (a b tid : String) (p : UpdatePayload) (now : Nat) (db : DB) (t : Task)
    (hab : a ≠ b)
    (hp : db.tasks.Pairwise (fun x y => x.id ≠ y.id))
    (ht : t ∈ db.tasks) (hta : t.user_id = a) (htid : objectId? tid = some t.id) :
    t ∉ get_tasks b db
    ∧ update_task b tid p now db = ((404, none), db)
    ∧ delete_task b tid db = (404, db) := by
  have hnone : ∀ x ∈ db.tasks, ¬ (x.id == t.id && x.user_id == b) = true := by
    intro x hx hpx
    simp only [Bool.and_eq_true, beq_iff_eq] at hpx
    have hxt : x = t := key_unique Task.id hp hx ht hpx.1
    rw [hxt] at hpx
    apply hab
    rw [← hta]
    exact hpx.2
  refine ⟨?_, ?_, ?_⟩
  · intro hmem
    rw [get_tasks, List.mem_insertionSort, List.mem_filter] at hmem
    have hb : t.user_id = b := by simpa using hmem.2
    apply hab
    rw [← hta]
    exact hb
  · simp only [update_task, htid, List.find?_eq_none.mpr hnone]
  · have hany : ¬ (db.tasks.any (fun x => x.id == t.id && x.user_id == b) = true) := by
      rw [List.any_eq_true]
      rintro ⟨x, hx, hpx⟩
      exact hnone x hx hpx
    simp only [delete_task, htid]
    rw [if_neg hany]

/-- C1 witness. -/
theorem c1_ownership_scoping_witness :
    update_task "b" "0" ⟨none, none, none, none, none, none⟩ 3
        ⟨[], [], [⟨0, "ta", "", false, "a", none, none, "general", 1, 1⟩], 1⟩ =
      ((404, none), ⟨[], [], [⟨0, "ta", "", false, "a", none, none, "general", 1, 1⟩], 1⟩)
    ∧ delete_task "b" "0" ⟨[], [], [⟨0, "ta", "", false, "a", none, none, "general", 1, 1⟩], 1⟩ =
      (404, ⟨[], [], [⟨0, "ta", "", false, "a", none, none, "general", 1, 1⟩], 1⟩) := by
  have hmain := c1_ownership_scoping "a" "b" "0" ⟨none, none, none, none, none, none⟩ 3
    ⟨[], [], [⟨0, "ta", "", false, "a", none, none, "general", 1, 1⟩], 1⟩
    ⟨0, "ta", "", false, "a", none, none, "general", 1, 1⟩
    (by decide) (by decide) (by decide) (by decide) (by decide)
  exact ⟨hmain.2.1, hmain.2.2⟩

/-- C2: a successful login leaves exactly one session for the user — the
fresh one — so the token of any session the user held before (necessarily
different from the fresh token) subsequently fails validation as an
invalid token. -/
theorem c2_single_session (u pw tok2 : String) (now now2 : Nat) (db : DB) (user : User) (s : Session)
    (hu : db.users.find? (fun v => v.username == u) = some user)
    (hpw : user.password = hash_password pw)
    (h1 : u ≠ "") (h2 : pw ≠ "")
    (hp : db.sessions.Pairwise (fun x y => x.token ≠ y.token))
    (hs : s ∈ db.sessions) (hsu : s.user_id = u) (hst : s.token ≠ tok2) :
    (login u pw tok2 now db).1.1 = 200
    ∧ (login u pw tok2 now db).2.sessions.filter (fun x => x.user_id == u) =
        [⟨tok2, u, now + 24 * 60 * 60⟩]
    ∧ (validateToken s.token now2 (login u pw tok2 now db).2).1 = AuthResult.invalidToken := by
  have hL := @login_success u pw tok2 now db user hu hpw h1 h2
  rw [hL]
  refine ⟨rfl, ?_, ?_⟩
  · rw [List.filter_append]
    have hleft : (db.sessions.filter (fun x => !(x.user_id == u))).filter
        (fun x => x.user_id == u) = [] := by
      rw [List.filter_eq_nil_iff]
      intro x hx
      have hx2 := (List.mem_filter.mp hx).2
      simpa using hx2
    rw [hleft]
    simp
  · have hfind : (db.sessions.filter (fun x => !(x.user_id == u)) ++
        [(⟨tok2, u, now + 24 * 60 * 60⟩ : Session)]).find? (fun x => x.token == s.token) = none := by
      rw [List.find?_eq_none]
      intro x hx hpx
      simp only [beq_iff_eq] at hpx
      rcases List.mem_append.mp hx with hx1 | hx2
      · have hxmem := (List.mem_filter.mp hx1).1
        have hxu := (List.mem_filter.mp hx1).2
        have hxs : x = s := key_unique Session.token hp hxmem hs hpx
        rw [hxs] at hxu
        simp [hsu] at hxu
      · rcases List.mem_cons.mp hx2 with rfl | hx3
        · exact hst (by simpa using hpx.symm)
        · cases hx3
    show (validateToken s.token now2
      { db with sessions := db.sessions.filter (fun x => !(x.user_id == u)) ++
          [⟨tok2, u, now + 24 * 60 * 60⟩] }).1 = AuthResult.invalidToken
    simp only [validateToken, hfind]

/-- C2 witness. -/
theorem c2_single_session_witness :
    (validateToken "oldtok" 1
        (login "alice" "pw" "newtok" 0
          ⟨[⟨7, "alice", "a@x.com", hash_password "pw", 0⟩],
           [⟨"oldtok", "alice", 500⟩], [], 0⟩).2).1 = AuthResult.invalidToken := by
  have hmain := c2_single_session "alice" "pw" "newtok" 0 1
    ⟨[⟨7, "alice", "a@x.com", hash_password "pw", 0⟩], [⟨"oldtok", "alice", 500⟩], [], 0⟩
    ⟨7, "alice", "a@x.com", hash_password "pw", 0⟩
    ⟨"oldtok", "alice", 500⟩
    (by decide) (by decide) (by decide) (by decide) (by decide) (by decide) (by decide) (by decide)
  exact hmain.2.2

/-- C3: validating the token of a session already past its expiry answers
Expired and deletes the session record, so validating the same token
again answers InvalidToken. -/
theorem c3_lazy_expiry (tok : String) (now now2 : Nat) (db : DB) (s : Session)
    (hp : db.sessions.Pairwise (fun x y => x.token ≠ y.token))
    (hs : s ∈ db.sessions) (htk : s.token = tok) (hexp : s.expires < now) :
    validateToken tok now db =
      (AuthResult.expired, { db with sessions := db.sessions.eraseP (fun x => x.token == tok) })
    ∧ (validateToken tok now2 (validateToken tok now db).2).1 = AuthResult.invalidToken := by
  have hfind : db.sessions.find? (fun x => x.token == tok) = some s := by
    apply find?_eq_some_of_unique hs
    · simp [htk]
    · intro x hx hpx
      simp only [beq_iff_eq] at hpx
      apply key_unique Session.token hp hx hs
      rw [hpx, htk]
  have h1 : validateToken tok now db =
      (AuthResult.expired, { db with sessions := db.sessions.eraseP (fun x => x.token == tok) }) := by
    simp only [validateToken, hfind]
    rw [if_pos hexp]
  refine ⟨h1, ?_⟩
  rw [h1]
  have hgone : (({ db with sessions := db.sessions.eraseP (fun x => x.token == tok) } : DB)).sessions.find?
      (fun x => x.token == tok) = none := by
    show (db.sessions.eraseP (fun x => x.token == tok)).find? (fun x => x.token == tok) = none
    exact find?_eraseP_key Session.token hp
  simp only [validateToken, hgone]

/-- C3 witness. -/
theorem c3_lazy_expiry_witness :
    validateToken "tk" 100 ⟨[], [⟨"tk", "alice", 50⟩], [], 0⟩ =
      (AuthResult.expired, ⟨[], [], [], 0⟩)
    ∧ (validateToken "tk" 100 (validateToken "tk" 100 ⟨[], [⟨"tk", "alice", 50⟩], [], 0⟩).2).1 =
      AuthResult.invalidToken := by
  have hmain := c3_lazy_expiry "tk" 100 100 ⟨[], [⟨"tk", "alice", 50⟩], [], 0⟩
    ⟨"tk", "alice", 50⟩ (by decide) (by decide) (by decide) (by decide)
  refine ⟨?_, hmain.2⟩
  rw [hmain.1]
  decide

/-- C4: logging in with the correct username and password returns status
200 with a token that immediately validates to the same username; a wrong
password (one whose digest does not match, in particular any password
other than the registered one) or an unknown username yields 401. -/
theorem c4_login_validate_roundtrip (u pw rpw tok : String) (now : Nat) (db : DB) (user : User)
    (hu : db.users.find? (fun v => v.username == u) = some user)
    (hpw : user.password = hash_password pw)
    (h1 : u ≠ "") (h2 : pw ≠ "")
    (hfresh : ∀ s ∈ db.sessions, s.token ≠ tok) :
    (login u pw tok now db).1 = (200, some ⟨tok, u, user.email⟩)
    ∧ (validateToken tok now (login u pw tok now db).2).1 = AuthResult.ok u
    ∧ (∀ pw2, pw2 ≠ "" → user.password ≠ hash_password pw2 →
        (login u pw2 tok now db).1 = (401, none))
    ∧ (∀ u2 pw2, u2 ≠ "" → pw2 ≠ "" → db.users.find? (fun v => v.username == u2) = none →
        (login u2 pw2 tok now db).1 = (401, none))
    ∧ (∀ pw2, pw2 ≠ "" → user.password = hash_password rpw → pw2 ≠ rpw →
        (login u pw2 tok now db).1 = (401, none)) := by
  have hL := @login_success u pw tok now db user hu hpw h1 h2
  refine ⟨by rw [hL], ?_, ?_, ?_, ?_⟩
  · rw [hL]
    have hfind : (db.sessions.filter (fun x => !(x.user_id == u)) ++
        [(⟨tok, u, now + 24 * 60 * 60⟩ : Session)]).find? (fun x => x.token == tok) =
        some ⟨tok, u, now + 24 * 60 * 60⟩ := by
      rw [List.find?_append]
      have hleft : (db.sessions.filter (fun x => !(x.user_id == u))).find?
          (fun x => x.token == tok) = none := by
        rw [List.find?_eq_none]
        intro x hx hpx
        simp only [beq_iff_eq] at hpx
        exact hfresh x (List.mem_filter.mp hx).1 hpx
      rw [hleft]
      simp
    show (validateToken tok now
      { db with sessions := db.sessions.filter (fun x => !(x.user_id == u)) ++
          [⟨tok, u, now + 24 * 60 * 60⟩] }).1 = AuthResult.ok u
    simp only [validateToken, hfind]
    rw [if_neg (by omega)]
  · intro pw2 hpw2 hne
    simp [login, h1, hpw2, hu, hne]
  · intro u2 pw2 hu2 hpw2 hfindnone
    simp [login, hu2, hpw2, hfindnone]
  · intro pw2 hpw2 hrpw hne
    have : user.password ≠ hash_password pw2 := by
      rw [hrpw]
      intro hcontra
      exact hne (hash_password_inj hcontra).symm
    simp [login, h1, hpw2, hu, this]

/-- C4 witness. -/
theorem c4_login_validate_roundtrip_witness :
    (login "alice" "pw" "tk" 0
        ⟨[⟨7, "alice", "a@x.com", hash_password "pw", 0⟩], [], [], 0⟩).1 =
      (200, some ⟨"tk", "alice", "a@x.com"⟩)
    ∧ (validateToken "tk" 0
        (login "alice" "pw" "tk" 0
          ⟨[⟨7, "alice", "a@x.com", hash_password "pw", 0⟩], [], [], 0⟩).2).1 =
      AuthResult.ok "alice" := by
  have hmain := c4_login_validate_roundtrip "alice" "pw" "pw" "tk" 0
    ⟨[⟨7, "alice", "a@x.com", hash_password "pw", 0⟩], [], [], 0⟩
    ⟨7, "alice", "a@x.com", hash_password "pw", 0⟩
    (by decide) (by decide) (by decide) (by decide) (by intro s hs; cases hs)
  exact ⟨hmain.1, hmain.2.1⟩

/-- C6 counterexample: a store whose only task has the non-empty title
`buy milk` is updated by its owner with a patch whose title is the empty
string; the update succeeds and the store now holds a task with an empty
title, refuting that no operation can make a stored title empty. -/
theorem c6_counterexample :
    ¬ (∀ t ∈ (update_task "u" "0" ⟨some "", none, none, none, none, none⟩ 2
        ⟨[], [], [⟨0, "buy milk", "", false, "u", none, none, "general", 1, 1⟩], 1⟩).2.tasks,
        t.title ≠ "") := by
  decide

/-- C6 (amended): `create` never stores an empty title, and `create`,
`delete`, and any `update` whose patch does not carry an empty title
preserve the all-titles-non-empty store invariant. (`update_task` performs
no title validation, so a patch carrying `title = ""` does break it.) -/
theorem c6_title_invariant (uid tid : String) (cp : CreatePayload) (up : UpdatePayload)
    (now : Nat) (db : DB)
    (hdb : ∀ t ∈ db.tasks, t.title ≠ "")
    (hup : ∀ s, up.title = some s → s ≠ "") :
    (∀ t ∈ (create_task uid cp now db).2.tasks, t.title ≠ "")
    ∧ (∀ t ∈ (update_task uid tid up now db).2.tasks, t.title ≠ "")
    ∧ (∀ t ∈ (delete_task uid tid db).2.tasks, t.title ≠ "") := by
  refine ⟨?_, ?_, ?_⟩
  · rcases hcp : cp.title with _ | ttl
    · simp only [create_task, hcp]
      exact hdb
    · by_cases hE : ttl = ""
      · simp only [create_task, hcp, if_pos hE]
        exact hdb
      · simp only [create_task, hcp, if_neg hE]
        intro t htm
        rcases List.mem_append.mp htm with hold | hnew
        · exact hdb t hold
        · rcases List.mem_cons.mp hnew with rfl | hc
          · simpa using hE
          · cases hc
  · have hpatch : ∀ y ∈ db.tasks, (applyPatch y up now).title ≠ "" := by
      intro y hy
      rcases hupt : up.title with _ | s2
      · simpa [applyPatch, hupt] using hdb y hy
      · simpa [applyPatch, hupt] using hup s2 hupt
    rcases hoid : objectId? tid with _ | oid
    · simp only [update_task, hoid]
      exact hdb
    · rcases hfind : db.tasks.find? (fun t => t.id == oid && t.user_id == uid) with _ | t0
      · simp only [update_task, hoid, hfind]
        exact hdb
      · rcases hfind2 : (updateFirst (fun t => t.id == oid)
            (fun t => applyPatch t up now) db.tasks).find? (fun t => t.id == oid) with _ | t1
        · simp only [update_task, hoid, hfind, hfind2]
          intro t htm
          rcases mem_updateFirst htm with hold | ⟨y, hy, rfl⟩
          · exact hdb t hold
          · exact hpatch y hy
        · simp only [update_task, hoid, hfind, hfind2]
          intro t htm
          rcases mem_updateFirst htm with hold | ⟨y, hy, rfl⟩
          · exact hdb t hold
          · exact hpatch y hy
  · rcases hoid : objectId? tid with _ | oid
    · simp only [delete_task, hoid]
      exact hdb
    · by_cases hany : db.tasks.any (fun t => t.id == oid && t.user_id == uid) = true
      · simp only [delete_task, hoid, if_pos hany]
        intro t htm
        exact hdb t ((List.eraseP_sublist db.tasks).subset htm)
      · simp only [delete_task, hoid, if_neg hany]
        exact hdb

/-- C6 witness for the amended theorem. -/
theorem c6_title_invariant_witness :
    ((update_task "u" "0" ⟨some "new", none, none, none, none, none⟩ 2
        ⟨[], [], [⟨0, "buy milk", "", false, "u", none, none, "general", 1, 1⟩], 1⟩).2.tasks.all
      (fun t => !(t.title == ""))) = true := by
  have hmain := c6_title_invariant "u" "0" ⟨some "c", none, none, none, none⟩
    ⟨some "new", none, none, none, none, none⟩ 2
    ⟨[], [], [⟨0, "buy milk", "", false, "u", none, none, "general", 1, 1⟩], 1⟩
    (by decide) (by intro s2 hs2; cases hs2; decide)
  rw [List.all_eq_true]
  intro t htm
  simpa using hmain.2.1 t htm

/-- C10: the authenticated identity is the username string itself: a
successful login leaves the logging-in username — not the user record's
internal id — as the sole `user_id` of the user's session; a successful
validate resolves to the stored session's `user_id`, which `/api/verify`
echoes verbatim; a created task is owned by the authenticated identity
string; and the user record's internal id is irrelevant — relabelling
every stored user id leaves the login response and resulting sessions
unchanged. -/
theorem c10_identity_is_username (u pw tok : String) (now : Nat) (db : DB) (user : User)
    (hu : db.users.find? (fun v => v.username == u) = some user)
    (hpw : user.password = hash_password pw)
    (h1 : u ≠ "") (h2 : pw ≠ "") :
    (login u pw tok now db).2.sessions.filter (fun x => x.user_id == u) =
      [⟨tok, u, now + 24 * 60 * 60⟩]
    ∧ (∀ (tk : String) (s : Session) (db2 : DB) (now2 : Nat),
        db2.sessions.find? (fun x => x.token == tk) = some s → ¬ s.expires < now2 →
        (validateToken tk now2 db2).1 = AuthResult.ok s.user_id)
    ∧ (∀ uid2 : String, verify uid2 = (200, (true, uid2)))
    ∧ (∀ (uid2 : String) (cp : CreatePayload) (now2 : Nat) (db2 : DB) (tsk : Task),
        (create_task uid2 cp now2 db2).1.2 = some tsk → tsk.user_id = uid2)
    ∧ (∀ (n : Nat) (us : List User) (ss : List Session) (ts : List Task) (ni : Nat),
        (login u pw tok now
            ⟨us.map (fun v : User => (⟨n, v.username, v.email, v.password, v.created_at⟩ : User)),
             ss, ts, ni⟩).1 =
          (login u pw tok now ⟨us, ss, ts, ni⟩).1
        ∧ (login u pw tok now
            ⟨us.map (fun v : User => (⟨n, v.username, v.email, v.password, v.created_at⟩ : User)),
             ss, ts, ni⟩).2.sessions =
          (login u pw tok now ⟨us, ss, ts, ni⟩).2.sessions) := by
  have hL := @login_success u pw tok now db user hu hpw h1 h2
  refine ⟨?_, ?_, ?_, ?_, ?_⟩
  · rw [hL]
    rw [List.filter_append]
    have hleft : (db.sessions.filter (fun x => !(x.user_id == u))).filter
        (fun x => x.user_id == u) = [] := by
      rw [List.filter_eq_nil_iff]
      intro x hx
      have hx2 := (List.mem_filter.mp hx).2
      simpa using hx2
    rw [hleft]
    simp
  · intro tk s2 db2 now2 hfind hnexp
    simp only [validateToken, hfind]
    rw [if_neg hnexp]
  · intro uid2
    rfl
  · intro uid2 cp now2 db2 tsk htsk
    rcases hcp : cp.title with _ | ttl
    · simp [create_task, hcp] at htsk
    · by_cases hE : ttl = ""
      · simp [create_task, hcp, hE] at htsk
      · simp only [create_task, hcp, if_neg hE] at htsk
        cases htsk
        rfl
  · intro n us ss ts ni
    have hmap : (us.map (fun v : User => (⟨n, v.username, v.email, v.password, v.created_at⟩ : User))).find?
        (fun v => v.username == u) =
        Option.map (fun v : User => (⟨n, v.username, v.email, v.password, v.created_at⟩ : User))
          (us.find? (fun v => v.username == u)) := by
      rw [List.find?_map]
      rfl
    by_cases h0 : u = "" ∨ pw = ""
    · exact ⟨by simp [login, h0], by simp [login, h0]⟩
    · rcases hf : us.find? (fun v => v.username == u) with _ | v
      · exact ⟨by simp [login, h0, hmap, hf], by simp [login, h0, hmap, hf]⟩
      · by_cases hpw2 : v.password = hash_password pw
        · exact ⟨by simp [login, h0, hmap, hf, hpw2], by simp [login, h0, hmap, hf, hpw2]⟩
        · exact ⟨by simp [login, h0, hmap, hf, hpw2], by simp [login, h0, hmap, hf, hpw2]⟩

/-- C10 witness. -/
theorem c10_identity_is_username_witness :
    (login "alice" "pw" "tk" 0
        ⟨[⟨7, "alice", "a@x.com", hash_password "pw", 0⟩], [], [], 0⟩).2.sessions.filter
      (fun x => x.user_id == "alice") = [⟨"tk", "alice", 86400⟩] := by
  have hmain := c10_identity_is_username "alice" "pw" "tk" 0
    ⟨[⟨7, "alice", "a@x.com", hash_password "pw", 0⟩], [], [], 0⟩
    ⟨7, "alice", "a@x.com", hash_password "pw", 0⟩
    (by decide) (by decide) (by decide) (by decide)
  exact hmain.1

end TaskManager
